import Mathlib

/-!
# Policy statement synthesis (`internal/resources/policy.go`)

A shallow embedding of `GetPolicyStatementsForLambda` and the theorems that
relate it to its written specification.

The Go function walks the permission list with a `for ... range` loop, and for
each permission walks its actions with a nested loop.  Both loops are embedded
as structural recursions that pass the loop variable (`statements`, resp.
`actions`) explicitly.  A Go `nil` slice and an empty slice are both the empty
list.  The Go result `([]PolicyStatement, error)` is the pair
`List PolicyStatement × Option String`, the second component being `none` for a
`nil` error and `some msg` for `errors.New(msg)`.
-/

set_option autoImplicit false

namespace Nestor

/-! ## Data model -/

/-- Modelled from the spec: the resource type enumeration is declared outside
`policy.go`.  The two constants `s3Bucket` and `dynamoDbTable` that the switch
of `GetPolicyStatementsForLambda` names are kept, and every other value of the
enumeration ("unsupported types must be representable") is `other tag`. -/
inductive ResourceType where
  | s3Bucket
  | dynamoDbTable
  | other (tag : Nat)
  deriving DecidableEq

/-- Modelled from the spec: the resource record is declared outside
`policy.go`; these are the two fields the function reads, `resourceType` and
`awsID` (the provider identifier). -/
structure Resource where
  resourceType : ResourceType
  awsID : String
  deriving DecidableEq

/-- Modelled from the spec: the registry `Resources` and its method
`findresourceByID` are declared outside `policy.go`.  The lookup contract is
`lookup(resourceID) -> Resource | not-found`, a function of the registry state
alone, so the registry is taken to be its lookup function (`none` is the Go
`nil` pointer). -/
structure Resources where
  findresourceByID : String → Option Resource

/-- One entry of `permission.Actions` (`config` package): the code reads its
`Operation` field. -/
structure LambdaPermissionAction where
  Operation : String
  deriving DecidableEq

/-- The type `config.LambdaPermission`: the code reads `ResourceID` and
`Actions`. -/
structure LambdaPermission where
  ResourceID : String
  Actions : List LambdaPermissionAction
  deriving DecidableEq

/-- The type `PolicyStatement` of `policy.go`. -/
structure PolicyStatement where
  Effect : String
  Action : List String
  Resource : String
  deriving DecidableEq

/-! ## The code -/

/-- The inner loop of the `case s3Bucket:` branch (lines 30-42): `actions` is
the slice built so far, the list is what remains of `permission.Actions`.  The
`default` branch leaves the whole function with an error, which is
`Except.error` here. -/
def s3BucketActions : List String → List LambdaPermissionAction → Except String (List String)
  | actions, [] => Except.ok actions
  | actions, action :: rest =>
    if action.Operation = "read" then
      s3BucketActions (actions ++ ["s3:GetObject"]) rest
    else if action.Operation = "write" then
      s3BucketActions (actions ++ ["s3:PutObject"]) rest
    else if action.Operation = "delete" then
      s3BucketActions (actions ++ ["s3:DeleteObject"]) rest
    else
      Except.error ("Invalid operation on bucket:" ++ action.Operation)

/-- The inner loop of the `case dynamoDbTable:` branch (lines 50-65). -/
def dynamoDbTableActions : List String → List LambdaPermissionAction → Except String (List String)
  | actions, [] => Except.ok actions
  | actions, action :: rest =>
    if action.Operation = "read" then
      dynamoDbTableActions (actions ++ ["dynamodb:GetItem"]) rest
    else if action.Operation = "query" then
      dynamoDbTableActions (actions ++ ["dynamodb:Query"]) rest
    else if action.Operation = "write" then
      dynamoDbTableActions ((actions ++ ["dynamodb:PutItem"]) ++ ["dynamodb:UpdateItem"]) rest
    else if action.Operation = "delete" then
      dynamoDbTableActions (actions ++ ["dynamodb:DeleteItem"]) rest
    else
      Except.error ("Invalid operation on dynamo table:" ++ action.Operation)

/-- The outer loop (lines 22-75): `statements` is the slice built so far, the
list is what remains of `permissions`.  Every `return nil, errors.New(..)`
gives `([], some ..)`; falling off the loop gives `(statements, none)`
(line 76). -/
def policyLoop (res : Resources) :
    List PolicyStatement → List LambdaPermission → List PolicyStatement × Option String
  | statements, [] => (statements, none)
  | statements, permission :: rest =>
    match res.findresourceByID permission.ResourceID with
    | none => ([], some ("Unknown resourceId:" ++ permission.ResourceID))
    | some resource =>
      match resource.resourceType with
      | ResourceType.s3Bucket =>
        match s3BucketActions [] permission.Actions with
        | Except.error e => ([], some e)
        | Except.ok actions =>
          policyLoop res
            (statements ++ [{ Effect := "Allow", Resource := resource.awsID, Action := actions }])
            rest
      | ResourceType.dynamoDbTable =>
        match dynamoDbTableActions [] permission.Actions with
        | Except.error e => ([], some e)
        | Except.ok actions =>
          policyLoop res
            (statements ++ [{ Effect := "Allow", Resource := resource.awsID, Action := actions }])
            rest
      | ResourceType.other _ =>
        ([], some ("no policy can be set on:" ++ permission.ResourceID))

/-- The function `(*Resources).GetPolicyStatementsForLambda`: the loop started
with `var statements []PolicyStatement` (nil). -/
def GetPolicyStatementsForLambda (res : Resources) (permissions : List LambdaPermission) :
    List PolicyStatement × Option String :=
  policyLoop res [] permissions

/-! ## The specification's tables -/

/-- The operation table written in the specification for the object store
type: abstract operation, then the provider actions it stands for. -/
def s3BucketTable : List (String × List String) :=
  [("read", ["s3:GetObject"]),
   ("write", ["s3:PutObject"]),
   ("delete", ["s3:DeleteObject"])]

/-- The operation table written in the specification for the document table
type; `write` stands for two actions. -/
def dynamoDbTableTable : List (String × List String) :=
  [("read", ["dynamodb:GetItem"]),
   ("query", ["dynamodb:Query"]),
   ("write", ["dynamodb:PutItem", "dynamodb:UpdateItem"]),
   ("delete", ["dynamodb:DeleteItem"])]

/-- The table of a resource type; a type outside the two supported ones has
none, which is the empty table here. -/
def operationTable : ResourceType → List (String × List String)
  | ResourceType.s3Bucket => s3BucketTable
  | ResourceType.dynamoDbTable => dynamoDbTableTable
  | ResourceType.other _ => []

/-- The keys of the table of a resource type. -/
def tableKeys (t : ResourceType) : List String :=
  (operationTable t).map Prod.fst

/-- The table expansion of one operation (nothing for an operation that is not
a key). -/
def tableExpansion (t : ResourceType) (op : String) : List String :=
  ((operationTable t).lookup op).getD []

/-- The in-order concatenation of the table expansions of a grant's
operations. -/
def expandOperations (t : ResourceType) (ops : List LambdaPermissionAction) : List String :=
  (ops.map (fun a => tableExpansion t a.Operation)).flatten

/-- The resource types that have a table. -/
def SupportedType (t : ResourceType) : Prop :=
  t = ResourceType.s3Bucket ∨ t = ResourceType.dynamoDbTable

/-- A grant is valid in a registry when its identifier resolves, the resolved
resource has a supported type, and every operation is a key of that type's
table. -/
def ValidGrant (res : Resources) (g : LambdaPermission) : Prop :=
  ∃ r, res.findresourceByID g.ResourceID = some r ∧ SupportedType r.resourceType ∧
    ∀ a ∈ g.Actions, a.Operation ∈ tableKeys r.resourceType

/-- The statement the specification expects for a valid grant: effect
`Allow`, the expanded operations, the provider identifier of the resolved
resource.  (For an identifier that does not resolve the value is not used.) -/
def specStatement (res : Resources) (g : LambdaPermission) : PolicyStatement :=
  match res.findresourceByID g.ResourceID with
  | some r =>
    { Effect := "Allow", Action := expandOperations r.resourceType g.Actions, Resource := r.awsID }
  | none => { Effect := "Allow", Action := [], Resource := "" }

/-! ## A concrete registry -/

/-- A registry with one bucket, one table and one resource of another type. -/
def sampleRegistry : Resources where
  findresourceByID := fun id =>
    if id = "uploads" then
      some { resourceType := ResourceType.s3Bucket, awsID := "arn:aws:s3:::uploads" }
    else if id = "users" then
      some { resourceType := ResourceType.dynamoDbTable, awsID := "arn:aws:dynamodb:::users" }
    else if id = "worker" then
      some { resourceType := ResourceType.other 0, awsID := "arn:aws:lambda:::worker" }
    else none

/-- A grant on the bucket of `sampleRegistry`. -/
def uploadsGrant (ops : List String) : LambdaPermission :=
  { ResourceID := "uploads", Actions := ops.map LambdaPermissionAction.mk }

/-- A grant on the table of `sampleRegistry`. -/
def usersGrant (ops : List String) : LambdaPermission :=
  { ResourceID := "users", Actions := ops.map LambdaPermissionAction.mk }

/-! ## The error messages -/

/-- The message of the error of line 26, for the identifier that did not
resolve. -/
def unknownResourceMessage (resourceID : String) : String :=
  "Unknown resourceId:" ++ resourceID

/-- The message of the error of line 40, for the operation that is not a case
of the bucket switch. -/
def invalidBucketOperationMessage (operation : String) : String :=
  "Invalid operation on bucket:" ++ operation

/-- The message of the error of line 63, for the operation that is not a case
of the table switch. -/
def invalidTableOperationMessage (operation : String) : String :=
  "Invalid operation on dynamo table:" ++ operation

/-- The message of the error of line 73, for the identifier whose resource has
a type outside the switch. -/
def noPolicyMessage (resourceID : String) : String :=
  "no policy can be set on:" ++ resourceID

/-- The number of occurrences of `write` among the operations of a grant. -/
def writeCount (ops : List LambdaPermissionAction) : Nat :=
  ops.countP (fun a => a.Operation = "write")

/-! ## The function over a registry with state

`findresourceByID` is a method on `*Resources`, so a call may read and write
the registry.  Here the registry is a state and the lookup a step on it; the
loop hands the state from one lookup to the next, in the order of the source,
and returns the state it ends in together with the Go result. -/

/-- The outer loop (lines 22-75) over a registry state `s`: the lookup of
line 24 answers and leaves the state the rest of the run goes on with.  The
inner loops do not touch the registry. -/
def policyLoopState {σ : Type} (lookup : σ → String → Option Resource × σ) :
    σ → List PolicyStatement → List LambdaPermission →
      (List PolicyStatement × Option String) × σ
  | s, statements, [] => ((statements, none), s)
  | s, statements, permission :: rest =>
    match lookup s permission.ResourceID with
    | (none, s1) => (([], some ("Unknown resourceId:" ++ permission.ResourceID)), s1)
    | (some resource, s1) =>
      match resource.resourceType with
      | ResourceType.s3Bucket =>
        match s3BucketActions [] permission.Actions with
        | Except.error e => (([], some e), s1)
        | Except.ok actions =>
          policyLoopState lookup s1
            (statements ++ [{ Effect := "Allow", Resource := resource.awsID, Action := actions }])
            rest
      | ResourceType.dynamoDbTable =>
        match dynamoDbTableActions [] permission.Actions with
        | Except.error e => (([], some e), s1)
        | Except.ok actions =>
          policyLoopState lookup s1
            (statements ++ [{ Effect := "Allow", Resource := resource.awsID, Action := actions }])
            rest
      | ResourceType.other _ =>
        (([], some ("no policy can be set on:" ++ permission.ResourceID)), s1)

/-- The function `GetPolicyStatementsForLambda` called in registry state `s`:
its result and the registry state after the call. -/
def GetPolicyStatementsForLambdaState {σ : Type} (lookup : σ → String → Option Resource × σ)
    (s : σ) (permissions : List LambdaPermission) :
    (List PolicyStatement × Option String) × σ :=
  policyLoopState lookup s [] permissions

/-- The registry that is read in state `s` and not written. -/
def registryAt {σ : Type} (lookup : σ → String → Option Resource × σ) (s : σ) : Resources :=
  { findresourceByID := fun id => (lookup s id).1 }

/-- A registry whose state is the number of lookups served so far; it answers
as `sampleRegistry` does. -/
def countingLookup (n : Nat) (id : String) : Option Resource × Nat :=
  (sampleRegistry.findresourceByID id, n + 1)

/-! ## The reporter (`internal/reporter/reporter.go`)

The fields `level` have the Go type `int`, whose addition wraps around; the
width taken is the 64 bits of the common targets.  A `*Message` may be nil,
which is `none`; a nil map is `none` as well.  The receivers `*Reporter` and
`*Task` are the reporter and the task at hand.

A function that prints first builds the indentation, two blanks at a time.
The run can hold strings of at most `limit` bytes (`limit` is at most `maxInt`,
a length being an `int`, and no more than memory allows); when the indentation
does not fit, or a nil message is read, the call does not return, which is
`none`.  What is printed is recorded as the list of the calls of
`printMessageAndArgs` that completed; colours are left out, nothing reads them
back. -/

/-- The least value of a 64-bit Go `int`. -/
def minInt : Int := -9223372036854775808

/-- The greatest value of a 64-bit Go `int`. -/
def maxInt : Int := 9223372036854775807

/-- The value a 64-bit Go `int` takes for the mathematical result `x` of an
addition: `x` reduced to the range from `minInt` to `maxInt`. -/
def wrapInt (x : Int) : Int :=
  (x + 9223372036854775808) % 18446744073709551616 - 9223372036854775808

/-- The type `Message`: a title and its arguments (a Go map, kept as the list
of its entries; `none` is the nil map). -/
structure Message where
  title : String
  args : Option (List (String × String))
  deriving DecidableEq

/-- The type `Reporter`; `message` is a pointer, `none` when nil. -/
structure Reporter where
  message : Option Message
  level : Int
  deriving DecidableEq

/-- The type `Task`; `reporter` is a pointer, `none` when nil. -/
structure Task where
  reporter : Option Reporter
  level : Int
  deriving DecidableEq

/-- One completed call `printMessageAndArgs(indent, title, args)`: the
indentation it built, the title, and the arguments (`none` for a nil map). -/
structure PrintCall where
  tab : String
  title : String
  args : Option (List (String × String))
  deriving DecidableEq

/-- The loop of lines 31-33, `for i := 0; i < indent; i++ { tab += "  " }`,
with the number of iterations still to run and the `tab` built so far.  A
concatenation that would pass `limit` bytes ends the run. -/
def indentLoop (limit : Nat) : Nat → String → Option String
  | 0, tab => some tab
  | remaining + 1, tab =>
    if tab.length + 2 ≤ limit then indentLoop limit remaining (tab ++ "  ") else none

/-- The function `printMessageAndArgs` (lines 29-41): the loop runs `indent`
times, or not at all when `indent` is not positive; then the lines are
printed. -/
def printMessageAndArgs (limit : Nat) (indent : Int) (title : String)
    (args : Option (List (String × String))) (out : List PrintCall) : Option (List PrintCall) :=
  match indentLoop limit indent.toNat "" with
  | none => none
  | some tab => some (out ++ [{ tab := tab, title := title, args := args }])

/-- The function `NewMessage` (lines 58-64): the title with an empty map. -/
def NewMessage (title : String) : Message :=
  { title := title, args := some [] }

/-- The method `(*Message).print` (lines 72-78); reading `message.title` of a
nil message ends the run. -/
def Message.print (limit : Nat) (message : Option Message) (indent : Int) (withArgs : Bool)
    (extra : String) (out : List PrintCall) : Option (List PrintCall) :=
  match message with
  | none => none
  | some m =>
    let args : Option (List (String × String)) := if withArgs then m.args else none
    printMessageAndArgs limit indent (m.title ++ extra) args out

/-- The function `NewReporterM` (lines 81-87); the message is not checked. -/
def NewReporterM (message : Option Message) : Reporter :=
  { message := message, level := 0 }

/-- The function `NewReporter` (lines 90-92). -/
def NewReporter (title : String) : Reporter :=
  NewReporterM (some (NewMessage title))

/-- The method `(*Reporter).Start` (lines 95-104): prints the reporter's
message, then returns a task one level further in. -/
def Reporter.Start (limit : Nat) (reporter : Reporter) (out : List PrintCall) :
    Option (Task × List PrintCall) :=
  match Message.print limit reporter.message reporter.level true "" out with
  | none => none
  | some out1 => some ({ level := wrapInt (1 + reporter.level), reporter := some reporter }, out1)

/-- The method `(*Task).SubM` (lines 120-126): a new reporter one level below
the task, started; the message is not checked. -/
def Task.SubM (limit : Nat) (task : Task) (message : Option Message) (out : List PrintCall) :
    Option (Task × List PrintCall) :=
  let result : Reporter := { message := message, level := wrapInt (task.level + 1) }
  Reporter.Start limit result out

/-- The method `(*Task).Sub` (lines 129-131). -/
def Task.Sub (limit : Nat) (task : Task) (title : String) (out : List PrintCall) :
    Option (Task × List PrintCall) :=
  Task.SubM limit task (some (NewMessage title)) out

/-- The method `(*Task).LogM` (lines 134-138): prints the message at the
task's level and returns the task. -/
def Task.LogM (limit : Nat) (task : Task) (message : Option Message) (out : List PrintCall) :
    Option (Task × List PrintCall) :=
  match Message.print limit message task.level true "" out with
  | none => none
  | some out1 => some (task, out1)

/-- The method `(*Task).Log` (lines 141-145): calls `LogM`, drops what it
returns, and returns the task. -/
def Task.Log (limit : Nat) (task : Task) (title : String) (out : List PrintCall) :
    Option (Task × List PrintCall) :=
  match Task.LogM limit task (some (NewMessage title)) out with
  | none => none
  | some r => some (task, r.2)

/-! ## The inner loops against the tables -/

theorem mem_tableKeys_s3Bucket (op : String) :
    op ∈ tableKeys ResourceType.s3Bucket ↔ op = "read" ∨ op = "write" ∨ op = "delete" := by
  simp [tableKeys, operationTable, s3BucketTable]

theorem mem_tableKeys_dynamoDbTable (op : String) :
    op ∈ tableKeys ResourceType.dynamoDbTable ↔
      op = "read" ∨ op = "query" ∨ op = "write" ∨ op = "delete" := by
  simp [tableKeys, operationTable, dynamoDbTableTable]

theorem expandOperations_nil (t : ResourceType) : expandOperations t [] = [] := rfl

theorem expandOperations_cons (t : ResourceType) (a : LambdaPermissionAction)
    (ops : List LambdaPermissionAction) :
    expandOperations t (a :: ops) = tableExpansion t a.Operation ++ expandOperations t ops := by
  simp [expandOperations]

theorem s3BucketActions_ok (ops : List LambdaPermissionAction) :
    ∀ acc : List String, (∀ a ∈ ops, a.Operation ∈ tableKeys ResourceType.s3Bucket) →
      s3BucketActions acc ops = Except.ok (acc ++ expandOperations ResourceType.s3Bucket ops) := by
  induction ops with
  | nil => intro acc _; simp [s3BucketActions, expandOperations_nil]
  | cons a rest ih =>
    intro acc h
    have ha := (mem_tableKeys_s3Bucket a.Operation).1 (h a (List.mem_cons_self _ _))
    have hrest : ∀ b ∈ rest, b.Operation ∈ tableKeys ResourceType.s3Bucket :=
      fun b hb => h b (List.mem_cons_of_mem _ hb)
    rw [expandOperations_cons]
    rcases ha with ha | ha | ha
    · have e : tableExpansion ResourceType.s3Bucket a.Operation = ["s3:GetObject"] := by
        rw [ha]; decide
      rw [s3BucketActions, if_pos ha, ih _ hrest, e, List.append_assoc]
    · have e : tableExpansion ResourceType.s3Bucket a.Operation = ["s3:PutObject"] := by
        rw [ha]; decide
      have n1 : a.Operation ≠ "read" := by rw [ha]; decide
      rw [s3BucketActions, if_neg n1, if_pos ha, ih _ hrest, e, List.append_assoc]
    · have e : tableExpansion ResourceType.s3Bucket a.Operation = ["s3:DeleteObject"] := by
        rw [ha]; decide
      have n1 : a.Operation ≠ "read" := by rw [ha]; decide
      have n2 : a.Operation ≠ "write" := by rw [ha]; decide
      rw [s3BucketActions, if_neg n1, if_neg n2, if_pos ha, ih _ hrest, e, List.append_assoc]

theorem s3BucketActions_error (pre : List LambdaPermissionAction) :
    ∀ (acc : List String) (a : LambdaPermissionAction) (post : List LambdaPermissionAction),
      (∀ b ∈ pre, b.Operation ∈ tableKeys ResourceType.s3Bucket) →
      a.Operation ∉ tableKeys ResourceType.s3Bucket →
      s3BucketActions acc (pre ++ a :: post) =
        Except.error ("Invalid operation on bucket:" ++ a.Operation) := by
  induction pre with
  | nil =>
    intro acc a post _ ha
    rw [mem_tableKeys_s3Bucket] at ha
    simp only [not_or] at ha
    rw [List.nil_append, s3BucketActions, if_neg ha.1, if_neg ha.2.1, if_neg ha.2.2]
  | cons b rest ih =>
    intro acc a post h ha
    have hb := (mem_tableKeys_s3Bucket b.Operation).1 (h b (List.mem_cons_self _ _))
    have hrest : ∀ c ∈ rest, c.Operation ∈ tableKeys ResourceType.s3Bucket :=
      fun c hc => h c (List.mem_cons_of_mem _ hc)
    rw [List.cons_append, s3BucketActions]
    split
    · exact ih _ a post hrest ha
    · split
      · exact ih _ a post hrest ha
      · split
        · exact ih _ a post hrest ha
        · rename_i n1 n2 n3
          rcases hb with hb | hb | hb
          · exact absurd hb n1
          · exact absurd hb n2
          · exact absurd hb n3

theorem dynamoDbTableActions_ok (ops : List LambdaPermissionAction) :
    ∀ acc : List String, (∀ a ∈ ops, a.Operation ∈ tableKeys ResourceType.dynamoDbTable) →
      dynamoDbTableActions acc ops =
        Except.ok (acc ++ expandOperations ResourceType.dynamoDbTable ops) := by
  induction ops with
  | nil => intro acc _; simp [dynamoDbTableActions, expandOperations_nil]
  | cons a rest ih =>
    intro acc h
    have ha := (mem_tableKeys_dynamoDbTable a.Operation).1 (h a (List.mem_cons_self _ _))
    have hrest : ∀ b ∈ rest, b.Operation ∈ tableKeys ResourceType.dynamoDbTable :=
      fun b hb => h b (List.mem_cons_of_mem _ hb)
    rw [expandOperations_cons]
    rcases ha with ha | ha | ha | ha
    · have e : tableExpansion ResourceType.dynamoDbTable a.Operation = ["dynamodb:GetItem"] := by
        rw [ha]; decide
      rw [dynamoDbTableActions, if_pos ha, ih _ hrest, e, List.append_assoc]
    · have e : tableExpansion ResourceType.dynamoDbTable a.Operation = ["dynamodb:Query"] := by
        rw [ha]; decide
      have n1 : a.Operation ≠ "read" := by rw [ha]; decide
      rw [dynamoDbTableActions, if_neg n1, if_pos ha, ih _ hrest, e, List.append_assoc]
    · have e : tableExpansion ResourceType.dynamoDbTable a.Operation =
          ["dynamodb:PutItem", "dynamodb:UpdateItem"] := by
        rw [ha]; decide
      have n1 : a.Operation ≠ "read" := by rw [ha]; decide
      have n2 : a.Operation ≠ "query" := by rw [ha]; decide
      rw [dynamoDbTableActions, if_neg n1, if_neg n2, if_pos ha, ih _ hrest, e]
      simp [List.append_assoc]
    · have e : tableExpansion ResourceType.dynamoDbTable a.Operation =
          ["dynamodb:DeleteItem"] := by
        rw [ha]; decide
      have n1 : a.Operation ≠ "read" := by rw [ha]; decide
      have n2 : a.Operation ≠ "query" := by rw [ha]; decide
      have n3 : a.Operation ≠ "write" := by rw [ha]; decide
      rw [dynamoDbTableActions, if_neg n1, if_neg n2, if_neg n3, if_pos ha, ih _ hrest, e,
        List.append_assoc]

theorem dynamoDbTableActions_error (pre : List LambdaPermissionAction) :
    ∀ (acc : List String) (a : LambdaPermissionAction) (post : List LambdaPermissionAction),
      (∀ b ∈ pre, b.Operation ∈ tableKeys ResourceType.dynamoDbTable) →
      a.Operation ∉ tableKeys ResourceType.dynamoDbTable →
      dynamoDbTableActions acc (pre ++ a :: post) =
        Except.error ("Invalid operation on dynamo table:" ++ a.Operation) := by
  induction pre with
  | nil =>
    intro acc a post _ ha
    rw [mem_tableKeys_dynamoDbTable] at ha
    simp only [not_or] at ha
    rw [List.nil_append, dynamoDbTableActions, if_neg ha.1, if_neg ha.2.1, if_neg ha.2.2.1,
      if_neg ha.2.2.2]
  | cons b rest ih =>
    intro acc a post h ha
    have hb := (mem_tableKeys_dynamoDbTable b.Operation).1 (h b (List.mem_cons_self _ _))
    have hrest : ∀ c ∈ rest, c.Operation ∈ tableKeys ResourceType.dynamoDbTable :=
      fun c hc => h c (List.mem_cons_of_mem _ hc)
    rw [List.cons_append, dynamoDbTableActions]
    split
    · exact ih _ a post hrest ha
    · split
      · exact ih _ a post hrest ha
      · split
        · exact ih _ a post hrest ha
        · split
          · exact ih _ a post hrest ha
          · rename_i n1 n2 n3 n4
            rcases hb with hb | hb | hb | hb
            · exact absurd hb n1
            · exact absurd hb n2
            · exact absurd hb n3
            · exact absurd hb n4

/-- A list either satisfies a predicate throughout or splits at its first
element that does not. -/
theorem all_or_first_failure {α : Type} (p : α → Prop) (l : List α) :
    (∀ a ∈ l, p a) ∨
      ∃ pre a post, l = pre ++ a :: post ∧ (∀ b ∈ pre, p b) ∧ ¬ p a := by
  induction l with
  | nil => left; intro a ha; cases ha
  | cons x rest ih =>
    by_cases hx : p x
    · rcases ih with h | ⟨pre, a, post, e, hpre, ha⟩
      · left
        intro a ha
        rcases List.mem_cons.1 ha with rfl | h'
        · exact hx
        · exact h a h'
      · right
        refine ⟨x :: pre, a, post, by rw [e, List.cons_append], ?_, ha⟩
        intro b hb
        rcases List.mem_cons.1 hb with rfl | h'
        · exact hx
        · exact hpre b h'
    · right
      exact ⟨[], x, rest, rfl, fun b hb => absurd hb (List.not_mem_nil b), hx⟩

theorem s3BucketActions_ok_iff (acc : List String) (ops : List LambdaPermissionAction) :
    (∃ l, s3BucketActions acc ops = Except.ok l) ↔
      ∀ a ∈ ops, a.Operation ∈ tableKeys ResourceType.s3Bucket := by
  constructor
  · rintro ⟨l, hl⟩
    rcases all_or_first_failure (fun a : LambdaPermissionAction =>
        a.Operation ∈ tableKeys ResourceType.s3Bucket) ops with h | ⟨pre, a, post, e, hpre, ha⟩
    · exact h
    · rw [e, s3BucketActions_error pre acc a post hpre ha] at hl
      cases hl
  · intro h
    exact ⟨_, s3BucketActions_ok ops acc h⟩

theorem dynamoDbTableActions_ok_iff (acc : List String) (ops : List LambdaPermissionAction) :
    (∃ l, dynamoDbTableActions acc ops = Except.ok l) ↔
      ∀ a ∈ ops, a.Operation ∈ tableKeys ResourceType.dynamoDbTable := by
  constructor
  · rintro ⟨l, hl⟩
    rcases all_or_first_failure (fun a : LambdaPermissionAction =>
        a.Operation ∈ tableKeys ResourceType.dynamoDbTable) ops with
      h | ⟨pre, a, post, e, hpre, ha⟩
    · exact h
    · rw [e, dynamoDbTableActions_error pre acc a post hpre ha] at hl
      cases hl
  · intro h
    exact ⟨_, dynamoDbTableActions_ok ops acc h⟩

/-! ## The outer loop -/

theorem policyLoop_cons_valid (res : Resources) (statements : List PolicyStatement)
    (g : LambdaPermission) (rest : List LambdaPermission) (hg : ValidGrant res g) :
    policyLoop res statements (g :: rest) =
      policyLoop res (statements ++ [specStatement res g]) rest := by
  obtain ⟨r, hr, hty, hops⟩ := hg
  rcases hty with hty | hty
  · rw [hty] at hops
    rw [policyLoop]
    simp only [hr, hty, specStatement, s3BucketActions_ok g.Actions [] hops, List.nil_append]
  · rw [hty] at hops
    rw [policyLoop]
    simp only [hr, hty, specStatement, dynamoDbTableActions_ok g.Actions [] hops,
      List.nil_append]

theorem policyLoop_cons_invalid (res : Resources) (statements : List PolicyStatement)
    (g : LambdaPermission) (rest : List LambdaPermission) (hg : ¬ ValidGrant res g) :
    ∃ e, policyLoop res statements (g :: rest) = ([], some e) := by
  rw [policyLoop]
  cases hr : res.findresourceByID g.ResourceID with
  | none => exact ⟨_, rfl⟩
  | some r =>
    cases hty : r.resourceType with
    | other tag => simp only [hty]; exact ⟨_, rfl⟩
    | s3Bucket =>
      simp only [hty]
      cases hs : s3BucketActions [] g.Actions with
      | error e => exact ⟨_, rfl⟩
      | ok l =>
        exfalso
        apply hg
        refine ⟨r, hr, Or.inl hty, ?_⟩
        rw [hty]
        exact (s3BucketActions_ok_iff [] g.Actions).1 ⟨l, hs⟩
    | dynamoDbTable =>
      simp only [hty]
      cases hs : dynamoDbTableActions [] g.Actions with
      | error e => exact ⟨_, rfl⟩
      | ok l =>
        exfalso
        apply hg
        refine ⟨r, hr, Or.inr hty, ?_⟩
        rw [hty]
        exact (dynamoDbTableActions_ok_iff [] g.Actions).1 ⟨l, hs⟩

theorem policyLoop_append_valid (res : Resources) (pre : List LambdaPermission) :
    ∀ (statements : List PolicyStatement) (rest : List LambdaPermission),
      (∀ g ∈ pre, ValidGrant res g) →
      policyLoop res statements (pre ++ rest) =
        policyLoop res (statements ++ pre.map (specStatement res)) rest := by
  induction pre with
  | nil => intro statements rest _; simp
  | cons g tl ih =>
    intro statements rest h
    rw [List.cons_append, policyLoop_cons_valid res statements g _ (h g (List.mem_cons_self _ _)),
      ih _ rest (fun x hx => h x (List.mem_cons_of_mem _ hx))]
    simp [List.append_assoc]

theorem policyLoop_valid (res : Resources) (statements : List PolicyStatement)
    (permissions : List LambdaPermission) (h : ∀ g ∈ permissions, ValidGrant res g) :
    policyLoop res statements permissions =
      (statements ++ permissions.map (specStatement res), none) := by
  have := policyLoop_append_valid res permissions statements [] h
  rw [List.append_nil] at this
  rw [this, policyLoop]

theorem policyLoop_first_invalid (res : Resources) (statements : List PolicyStatement)
    (pre : List LambdaPermission) (g : LambdaPermission) (post : List LambdaPermission)
    (hpre : ∀ x ∈ pre, ValidGrant res x) :
    policyLoop res statements (pre ++ g :: post) =
      policyLoop res (statements ++ pre.map (specStatement res)) (g :: post) :=
  policyLoop_append_valid res pre statements (g :: post) hpre

/-- The loop ends in one of two ways: every grant is valid and the result is
the expected statements with no error, or some grant is not valid and the
result is no statements with an error. -/
theorem policyLoop_cases (res : Resources) (statements : List PolicyStatement)
    (permissions : List LambdaPermission) :
    ((∀ g ∈ permissions, ValidGrant res g) ∧
        policyLoop res statements permissions =
          (statements ++ permissions.map (specStatement res), none)) ∨
      ((¬ ∀ g ∈ permissions, ValidGrant res g) ∧
        ∃ e, policyLoop res statements permissions = ([], some e)) := by
  rcases all_or_first_failure (ValidGrant res) permissions with h | ⟨pre, g, post, e, hpre, hg⟩
  · exact Or.inl ⟨h, policyLoop_valid res statements permissions h⟩
  · right
    constructor
    · intro hall
      exact hg (hall g (by rw [e]; simp))
    · rw [e, policyLoop_first_invalid res statements pre g post hpre]
      exact policyLoop_cons_invalid res _ g post hg

theorem specStatement_of_find (res : Resources) (g : LambdaPermission) (r : Resource)
    (hr : res.findresourceByID g.ResourceID = some r) :
    specStatement res g =
      { Effect := "Allow", Action := expandOperations r.resourceType g.Actions,
        Resource := r.awsID } := by
  simp only [specStatement, hr]

theorem GetPolicyStatementsForLambda_cases (res : Resources)
    (permissions : List LambdaPermission) :
    ((∀ g ∈ permissions, ValidGrant res g) ∧
        GetPolicyStatementsForLambda res permissions =
          (permissions.map (specStatement res), none)) ∨
      ((¬ ∀ g ∈ permissions, ValidGrant res g) ∧
        ∃ e, GetPolicyStatementsForLambda res permissions = ([], some e)) := by
  have := policyLoop_cases res [] permissions
  simpa [GetPolicyStatementsForLambda] using this

theorem GetPolicyStatementsForLambda_valid (res : Resources)
    (permissions : List LambdaPermission) (h : ∀ g ∈ permissions, ValidGrant res g) :
    GetPolicyStatementsForLambda res permissions =
      (permissions.map (specStatement res), none) := by
  rcases GetPolicyStatementsForLambda_cases res permissions with ⟨_, e⟩ | ⟨hn, _⟩
  · exact e
  · exact absurd h hn

theorem GetPolicyStatementsForLambda_first_invalid (res : Resources)
    (pre : List LambdaPermission) (g : LambdaPermission) (post : List LambdaPermission)
    (hpre : ∀ x ∈ pre, ValidGrant res x) :
    GetPolicyStatementsForLambda res (pre ++ [g] ++ post) =
      policyLoop res (pre.map (specStatement res)) (g :: post) := by
  rw [GetPolicyStatementsForLambda, List.append_assoc, List.singleton_append,
    policyLoop_first_invalid res [] pre g post hpre, List.nil_append]

/-! ## Facts about the concrete registry -/

theorem validGrant_uploads_read_write :
    ValidGrant sampleRegistry (uploadsGrant ["read", "write"]) :=
  ⟨{ resourceType := ResourceType.s3Bucket, awsID := "arn:aws:s3:::uploads" }, by decide,
    Or.inl rfl, by decide⟩

theorem validGrant_users_write :
    ValidGrant sampleRegistry (usersGrant ["write"]) :=
  ⟨{ resourceType := ResourceType.dynamoDbTable, awsID := "arn:aws:dynamodb:::users" },
    by decide, Or.inr rfl, by decide⟩

theorem validGrant_users_write_read_write :
    ValidGrant sampleRegistry (usersGrant ["write", "read", "write"]) :=
  ⟨{ resourceType := ResourceType.dynamoDbTable, awsID := "arn:aws:dynamodb:::users" },
    by decide, Or.inr rfl, by decide⟩

theorem validGrants_sample :
    ∀ g ∈ [uploadsGrant ["read", "write"], usersGrant ["write"]], ValidGrant sampleRegistry g := by
  intro g hg
  simp only [List.mem_cons, List.mem_singleton, List.not_mem_nil, or_false] at hg
  rcases hg with rfl | rfl
  · exact validGrant_uploads_read_write
  · exact validGrant_users_write

/-! ## The claims -/

/-- C1: for every registry and every grant list whose grants are all valid
(the identifier resolves to a bucket or a table, every operation is a key of
that type's table), the call returns no error, as many statements as grants,
and the statement at index `i` carries the provider identifier of the resource
the grant at index `i` resolves to. -/
theorem C1_one_statement_per_grant (res : Resources) (permissions : List LambdaPermission)
    (h : ∀ g ∈ permissions, ValidGrant res g) :
    (GetPolicyStatementsForLambda res permissions).2 = none ∧
      (GetPolicyStatementsForLambda res permissions).1.length = permissions.length ∧
      ∀ (i : Nat) (hi : i < permissions.length),
        ∃ r s, res.findresourceByID (permissions[i]).ResourceID = some r ∧
          (GetPolicyStatementsForLambda res permissions).1[i]? = some s ∧
          s.Resource = r.awsID := by
  rw [GetPolicyStatementsForLambda_valid res permissions h]
  refine ⟨rfl, by simp, ?_⟩
  intro i hi
  obtain ⟨r, hr, _, _⟩ := h permissions[i] (List.getElem_mem _)
  refine ⟨r, specStatement res permissions[i], hr, ?_, ?_⟩
  · simp [List.getElem?_map, List.getElem?_eq_getElem hi]
  · rw [specStatement_of_find res _ r hr]

/-- C1 witness: a bucket grant followed by a table grant. -/
theorem C1_one_statement_per_grant_witness :
    (GetPolicyStatementsForLambda sampleRegistry
        [uploadsGrant ["read", "write"], usersGrant ["write"]]).2 = none ∧
      (GetPolicyStatementsForLambda sampleRegistry
        [uploadsGrant ["read", "write"], usersGrant ["write"]]).1.length = 2 :=
  ⟨(C1_one_statement_per_grant sampleRegistry _ validGrants_sample).1,
    (C1_one_statement_per_grant sampleRegistry _ validGrants_sample).2.1⟩

theorem valid_of_no_error (res : Resources) (permissions : List LambdaPermission)
    (hok : (GetPolicyStatementsForLambda res permissions).2 = none) :
    ∀ g ∈ permissions, ValidGrant res g := by
  rcases GetPolicyStatementsForLambda_cases res permissions with ⟨h, _⟩ | ⟨_, e, he⟩
  · exact h
  · rw [he] at hok
    cases hok

/-- C2: the table is the one the specification writes (three keys for a
bucket, four for a table, `write` on a table standing for two actions), and for
every call that returns no error the statement at index `i` has as its action
list the in-order concatenation of the table expansions of the operations of
the grant at index `i`; an operation that occurs twice is expanded twice and
nothing is sorted or removed. -/
theorem C2_actions_are_table_expansion (res : Resources) (permissions : List LambdaPermission)
    (hok : (GetPolicyStatementsForLambda res permissions).2 = none) :
    (operationTable ResourceType.s3Bucket =
        [("read", ["s3:GetObject"]), ("write", ["s3:PutObject"]),
         ("delete", ["s3:DeleteObject"])] ∧
      operationTable ResourceType.dynamoDbTable =
        [("read", ["dynamodb:GetItem"]), ("query", ["dynamodb:Query"]),
         ("write", ["dynamodb:PutItem", "dynamodb:UpdateItem"]),
         ("delete", ["dynamodb:DeleteItem"])]) ∧
      ∀ (i : Nat) (hi : i < permissions.length),
        ∃ r s, res.findresourceByID (permissions[i]).ResourceID = some r ∧
          (GetPolicyStatementsForLambda res permissions).1[i]? = some s ∧
          s.Action =
            ((permissions[i]).Actions.map
              (fun a => ((operationTable r.resourceType).lookup a.Operation).getD [])).flatten := by
  have h := valid_of_no_error res permissions hok
  rw [GetPolicyStatementsForLambda_valid res permissions h]
  refine ⟨⟨rfl, rfl⟩, ?_⟩
  intro i hi
  obtain ⟨r, hr, _, _⟩ := h permissions[i] (List.getElem_mem _)
  refine ⟨r, specStatement res permissions[i], hr, ?_, ?_⟩
  · simp [List.getElem?_map, List.getElem?_eq_getElem hi]
  · rw [specStatement_of_find res _ r hr]
    rfl

/-- C2 witness: a table grant `[write, read, write]` keeps both occurrences of
`write`, each expanded to two actions, in the order given. -/
theorem C2_actions_are_table_expansion_witness :
    (GetPolicyStatementsForLambda sampleRegistry [usersGrant ["write", "read", "write"]]).2 = none ∧
      ∃ r s, sampleRegistry.findresourceByID "users" = some r ∧
        (GetPolicyStatementsForLambda sampleRegistry
          [usersGrant ["write", "read", "write"]]).1[0]? = some s ∧
        s.Action =
          (["write", "read", "write"].map
            (fun op => ((operationTable r.resourceType).lookup op).getD [])).flatten :=
  ⟨by decide,
    by simpa [usersGrant] using
      (C2_actions_are_table_expansion sampleRegistry [usersGrant ["write", "read", "write"]]
        (by decide)).2 0 (by decide)⟩

/-- C3: a single grant that resolves to a table and whose operations are
exactly `[write]` gives no error and one statement whose actions are exactly
`dynamodb:PutItem` then `dynamodb:UpdateItem`. -/
theorem C3_table_write_two_actions (res : Resources) (g : LambdaPermission) (r : Resource)
    (hr : res.findresourceByID g.ResourceID = some r)
    (hty : r.resourceType = ResourceType.dynamoDbTable)
    (hops : g.Actions = [{ Operation := "write" }]) :
    GetPolicyStatementsForLambda res [g] =
      ([{ Effect := "Allow", Action := ["dynamodb:PutItem", "dynamodb:UpdateItem"],
          Resource := r.awsID }], none) := by
  simp only [GetPolicyStatementsForLambda, policyLoop, hr, hty, hops, dynamoDbTableActions]
  simp

/-- C3 witness: `[write]` on the table of the sample registry. -/
theorem C3_table_write_two_actions_witness :
    GetPolicyStatementsForLambda sampleRegistry [usersGrant ["write"]] =
      ([{ Effect := "Allow", Action := ["dynamodb:PutItem", "dynamodb:UpdateItem"],
          Resource := "arn:aws:dynamodb:::users" }], none) :=
  C3_table_write_two_actions sampleRegistry (usersGrant ["write"])
    { resourceType := ResourceType.dynamoDbTable, awsID := "arn:aws:dynamodb:::users" }
    (by decide) rfl (by decide)

/-- C4: a single grant that resolves to a bucket and whose operations are
exactly `[read, write]` gives no error and one statement whose actions are
exactly `s3:GetObject` then `s3:PutObject`. -/
theorem C4_bucket_read_write (res : Resources) (g : LambdaPermission) (r : Resource)
    (hr : res.findresourceByID g.ResourceID = some r)
    (hty : r.resourceType = ResourceType.s3Bucket)
    (hops : g.Actions = [{ Operation := "read" }, { Operation := "write" }]) :
    GetPolicyStatementsForLambda res [g] =
      ([{ Effect := "Allow", Action := ["s3:GetObject", "s3:PutObject"],
          Resource := r.awsID }], none) := by
  simp only [GetPolicyStatementsForLambda, policyLoop, hr, hty, hops, s3BucketActions]
  simp

/-- C4 witness: `[read, write]` on the bucket of the sample registry. -/
theorem C4_bucket_read_write_witness :
    GetPolicyStatementsForLambda sampleRegistry [uploadsGrant ["read", "write"]] =
      ([{ Effect := "Allow", Action := ["s3:GetObject", "s3:PutObject"],
          Resource := "arn:aws:s3:::uploads" }], none) :=
  C4_bucket_read_write sampleRegistry (uploadsGrant ["read", "write"])
    { resourceType := ResourceType.s3Bucket, awsID := "arn:aws:s3:::uploads" }
    (by decide) rfl (by decide)

/-- C5: the call returns a nil error exactly when every grant resolves, every
resolved resource is a bucket or a table, and every operation of every grant is
a key of the table of its resource's type (`read`, `write`, `delete` for a
bucket; `read`, `query`, `write`, `delete` for a table). -/
theorem C5_no_error_iff_all_valid (res : Resources) (permissions : List LambdaPermission) :
    (GetPolicyStatementsForLambda res permissions).2 = none ↔
      ∀ g ∈ permissions, ∃ r, res.findresourceByID g.ResourceID = some r ∧
        ((r.resourceType = ResourceType.s3Bucket ∧
            ∀ a ∈ g.Actions, a.Operation ∈ ["read", "write", "delete"]) ∨
          (r.resourceType = ResourceType.dynamoDbTable ∧
            ∀ a ∈ g.Actions, a.Operation ∈ ["read", "query", "write", "delete"])) := by
  have key : ∀ g, ValidGrant res g ↔ ∃ r, res.findresourceByID g.ResourceID = some r ∧
        ((r.resourceType = ResourceType.s3Bucket ∧
            ∀ a ∈ g.Actions, a.Operation ∈ ["read", "write", "delete"]) ∨
          (r.resourceType = ResourceType.dynamoDbTable ∧
            ∀ a ∈ g.Actions, a.Operation ∈ ["read", "query", "write", "delete"])) := by
    intro g
    constructor
    · rintro ⟨r, hr, hty | hty, hops⟩
      · rw [hty] at hops
        exact ⟨r, hr, Or.inl ⟨hty, hops⟩⟩
      · rw [hty] at hops
        exact ⟨r, hr, Or.inr ⟨hty, hops⟩⟩
    · rintro ⟨r, hr, ⟨hty, hops⟩ | ⟨hty, hops⟩⟩
      · exact ⟨r, hr, Or.inl hty, by rw [hty]; exact hops⟩
      · exact ⟨r, hr, Or.inr hty, by rw [hty]; exact hops⟩
  constructor
  · intro hok g hg
    exact (key g).1 (valid_of_no_error res permissions hok g hg)
  · intro h
    rw [GetPolicyStatementsForLambda_valid res permissions (fun g hg => (key g).2 (h g hg))]

/-- C6: all or nothing: whenever the call returns a non-nil error, the
returned statement list is empty, whatever statements earlier grants had
produced. -/
theorem C6_error_gives_no_statements (res : Resources) (permissions : List LambdaPermission)
    (herr : (GetPolicyStatementsForLambda res permissions).2 ≠ none) :
    (GetPolicyStatementsForLambda res permissions).1 = [] := by
  rcases GetPolicyStatementsForLambda_cases res permissions with ⟨_, e⟩ | ⟨_, e, he⟩
  · rw [e] at herr
    exact absurd rfl herr
  · rw [he]

/-- C6 witness: a valid bucket grant followed by a grant on an unknown
identifier; the statement of the first grant is not returned. -/
theorem C6_error_gives_no_statements_witness :
    (GetPolicyStatementsForLambda sampleRegistry
        [uploadsGrant ["read", "write"], { ResourceID := "missing", Actions := [] }]).2 ≠ none ∧
      (GetPolicyStatementsForLambda sampleRegistry
        [uploadsGrant ["read", "write"], { ResourceID := "missing", Actions := [] }]).1 = [] :=
  ⟨by decide, C6_error_gives_no_statements sampleRegistry _ (by decide)⟩

/-- C7: in a grant list `pre ++ [g] ++ post` whose grants before `g` are all
valid and whose `g` names an identifier absent from the registry, the call
returns no statements and the error `Unknown resourceId:` followed by that
identifier, whatever the operations of `g` and whatever `post` holds. -/
theorem C7_unknown_resource (res : Resources) (pre : List LambdaPermission)
    (g : LambdaPermission) (post : List LambdaPermission)
    (hpre : ∀ x ∈ pre, ValidGrant res x)
    (hg : res.findresourceByID g.ResourceID = none) :
    GetPolicyStatementsForLambda res (pre ++ [g] ++ post) =
      ([], some ("Unknown resourceId:" ++ g.ResourceID)) := by
  rw [GetPolicyStatementsForLambda_first_invalid res pre g post hpre, policyLoop]
  simp only [hg]

/-- C7 witness: two valid grants, then an unknown identifier with an operation
no table has, then a grant that would fail in another way. -/
theorem C7_unknown_resource_witness :
    GetPolicyStatementsForLambda sampleRegistry
        ([uploadsGrant ["read", "write"], usersGrant ["write"]] ++
          [{ ResourceID := "missing", Actions := [{ Operation := "foo" }] }] ++
          [uploadsGrant ["foo"]]) =
      ([], some "Unknown resourceId:missing") :=
  C7_unknown_resource sampleRegistry [uploadsGrant ["read", "write"], usersGrant ["write"]]
    { ResourceID := "missing", Actions := [{ Operation := "foo" }] } [uploadsGrant ["foo"]]
    validGrants_sample (by decide)

/-- C8: in a grant list `pre ++ [g] ++ post` whose grants before `g` are all
valid, whose `g` resolves to a bucket (respectively a table) and whose
operations are `opre ++ [a] ++ opost` with every operation of `opre` a key of
that type's table and `a` not a key, the call returns no statements and the
error `Invalid operation on bucket:` (respectively `Invalid operation on dynamo
table:`) followed by the operation of `a`. -/
theorem C8_invalid_operation (res : Resources) (pre : List LambdaPermission)
    (g : LambdaPermission) (post : List LambdaPermission) (r : Resource)
    (opre : List LambdaPermissionAction) (a : LambdaPermissionAction)
    (opost : List LambdaPermissionAction)
    (hpre : ∀ x ∈ pre, ValidGrant res x)
    (hr : res.findresourceByID g.ResourceID = some r)
    (hty : r.resourceType = ResourceType.s3Bucket ∨ r.resourceType = ResourceType.dynamoDbTable)
    (hops : g.Actions = opre ++ [a] ++ opost)
    (hopre : ∀ b ∈ opre, b.Operation ∈ tableKeys r.resourceType)
    (ha : a.Operation ∉ tableKeys r.resourceType) :
    GetPolicyStatementsForLambda res (pre ++ [g] ++ post) =
      ([], some ((if r.resourceType = ResourceType.s3Bucket then "Invalid operation on bucket:"
                  else "Invalid operation on dynamo table:") ++ a.Operation)) := by
  rw [GetPolicyStatementsForLambda_first_invalid res pre g post hpre, policyLoop]
  rw [List.append_assoc, List.singleton_append] at hops
  rcases hty with hty | hty
  · rw [hty] at hopre ha
    simp only [hr, hty, hops, s3BucketActions_error opre [] a opost hopre ha, if_true]
  · rw [hty] at hopre ha
    simp only [hr, hty, hops, dynamoDbTableActions_error opre [] a opost hopre ha]
    simp

/-- C8 witness: after a valid grant, a bucket grant `[read, foo, bar]` fails
on `foo`. -/
theorem C8_invalid_operation_witness :
    GetPolicyStatementsForLambda sampleRegistry
        ([usersGrant ["write"]] ++ [uploadsGrant ["read", "foo", "bar"]] ++
          [usersGrant ["nope"]]) =
      ([], some "Invalid operation on bucket:foo") :=
  C8_invalid_operation sampleRegistry [usersGrant ["write"]]
    (uploadsGrant ["read", "foo", "bar"]) [usersGrant ["nope"]]
    { resourceType := ResourceType.s3Bucket, awsID := "arn:aws:s3:::uploads" }
    [{ Operation := "read" }] { Operation := "foo" } [{ Operation := "bar" }]
    (by
      intro x hx
      rw [List.mem_singleton.1 hx]
      exact validGrant_users_write)
    (by decide) (Or.inl rfl) (by decide) (by decide) (by decide)

/-- C9: in a grant list `pre ++ [g] ++ post` whose grants before `g` are all
valid and whose `g` resolves to a resource that is neither a bucket nor a
table, the call returns no statements and the error `no policy can be set on:`
followed by the identifier of `g`, whatever the operations of `g`. -/
theorem C9_unsupported_resource_type (res : Resources) (pre : List LambdaPermission)
    (g : LambdaPermission) (post : List LambdaPermission) (r : Resource)
    (hpre : ∀ x ∈ pre, ValidGrant res x)
    (hr : res.findresourceByID g.ResourceID = some r)
    (hs3 : r.resourceType ≠ ResourceType.s3Bucket)
    (hdyn : r.resourceType ≠ ResourceType.dynamoDbTable) :
    GetPolicyStatementsForLambda res (pre ++ [g] ++ post) =
      ([], some ("no policy can be set on:" ++ g.ResourceID)) := by
  rw [GetPolicyStatementsForLambda_first_invalid res pre g post hpre, policyLoop]
  cases hty : r.resourceType with
  | s3Bucket => exact absurd hty hs3
  | dynamoDbTable => exact absurd hty hdyn
  | other tag => simp only [hr, hty]

/-- C9 witness: after two valid grants, a grant with no operations on a
resource of another type. -/
theorem C9_unsupported_resource_type_witness :
    GetPolicyStatementsForLambda sampleRegistry
        ([uploadsGrant ["read", "write"], usersGrant ["write"]] ++
          [{ ResourceID := "worker", Actions := [] }] ++ []) =
      ([], some "no policy can be set on:worker") :=
  C9_unsupported_resource_type sampleRegistry
    [uploadsGrant ["read", "write"], usersGrant ["write"]]
    { ResourceID := "worker", Actions := [] } []
    { resourceType := ResourceType.other 0, awsID := "arn:aws:lambda:::worker" }
    validGrants_sample (by decide) (by decide) (by decide)

/-- C10: no merging: for two valid grants that name the same identifier, the
call on `[g1, g2]` returns no error and exactly two statements with the same
`Resource`; the first is the statement the call returns for `g1` alone and
carries the table expansion of the operations of `g1`, the second is the
statement the call returns for `g2` alone and carries the table expansion of
the operations of `g2`. -/
theorem C10_no_merging (res : Resources) (g1 g2 : LambdaPermission)
    (h1 : ValidGrant res g1) (h2 : ValidGrant res g2)
    (hid : g1.ResourceID = g2.ResourceID) :
    ∃ r s1 s2, res.findresourceByID g1.ResourceID = some r ∧
      GetPolicyStatementsForLambda res [g1, g2] = ([s1, s2], none) ∧
      s1.Resource = r.awsID ∧ s2.Resource = r.awsID ∧
      GetPolicyStatementsForLambda res [g1] = ([s1], none) ∧
      GetPolicyStatementsForLambda res [g2] = ([s2], none) ∧
      s1.Action = expandOperations r.resourceType g1.Actions ∧
      s2.Action = expandOperations r.resourceType g2.Actions := by
  have h1' := h1
  obtain ⟨r, hr, _, _⟩ := h1'
  have hr2 : res.findresourceByID g2.ResourceID = some r := by rw [← hid]; exact hr
  refine ⟨r, specStatement res g1, specStatement res g2, hr, ?_, ?_, ?_, ?_, ?_, ?_, ?_⟩
  · rw [GetPolicyStatementsForLambda_valid res [g1, g2]]
    · rfl
    · intro g hg
      simp only [List.mem_cons, List.mem_singleton, List.not_mem_nil, or_false] at hg
      rcases hg with rfl | rfl
      · exact h1
      · exact h2
  · rw [specStatement_of_find res g1 r hr]
  · rw [specStatement_of_find res g2 r hr2]
  · rw [GetPolicyStatementsForLambda_valid res [g1]]
    · rfl
    · intro g hg
      rw [List.mem_singleton.1 hg]
      exact h1
  · rw [GetPolicyStatementsForLambda_valid res [g2]]
    · rfl
    · intro g hg
      rw [List.mem_singleton.1 hg]
      exact h2
  · rw [specStatement_of_find res g1 r hr]
  · rw [specStatement_of_find res g2 r hr2]

/-- C10 witness: two grants on the same table, the second repeating the
`write` of the first; both statements are returned, unmerged. -/
theorem C10_no_merging_witness :
    ∃ r s1 s2, sampleRegistry.findresourceByID "users" = some r ∧
      GetPolicyStatementsForLambda sampleRegistry
        [usersGrant ["write"], usersGrant ["write", "read", "write"]] = ([s1, s2], none) ∧
      s1.Resource = r.awsID ∧ s2.Resource = r.awsID ∧
      GetPolicyStatementsForLambda sampleRegistry [usersGrant ["write"]] = ([s1], none) ∧
      GetPolicyStatementsForLambda sampleRegistry [usersGrant ["write", "read", "write"]] =
        ([s2], none) ∧
      s1.Action = expandOperations r.resourceType (usersGrant ["write"]).Actions ∧
      s2.Action =
        expandOperations r.resourceType (usersGrant ["write", "read", "write"]).Actions :=
  C10_no_merging sampleRegistry (usersGrant ["write"]) (usersGrant ["write", "read", "write"])
    validGrant_users_write validGrant_users_write_read_write rfl

/-! ## Further facts about the loop -/

/-- A grant that is not valid ends the loop with an error that depends neither
on the statements built so far nor on the grants after it. -/
theorem policyLoop_cons_invalid_uniform (res : Resources) (g : LambdaPermission)
    (hg : ¬ ValidGrant res g) :
    ∃ e, ∀ (statements : List PolicyStatement) (rest : List LambdaPermission),
      policyLoop res statements (g :: rest) = ([], some e) := by
  cases hr : res.findresourceByID g.ResourceID with
  | none =>
    refine ⟨"Unknown resourceId:" ++ g.ResourceID, fun statements rest => ?_⟩
    rw [policyLoop]
    simp only [hr]
  | some r =>
    cases hty : r.resourceType with
    | other tag =>
      refine ⟨"no policy can be set on:" ++ g.ResourceID, fun statements rest => ?_⟩
      rw [policyLoop]
      simp only [hr, hty]
    | s3Bucket =>
      cases hs : s3BucketActions [] g.Actions with
      | error e =>
        refine ⟨e, fun statements rest => ?_⟩
        rw [policyLoop]
        simp only [hr, hty, hs]
      | ok l =>
        exfalso
        apply hg
        refine ⟨r, hr, Or.inl hty, ?_⟩
        rw [hty]
        exact (s3BucketActions_ok_iff [] g.Actions).1 ⟨l, hs⟩
    | dynamoDbTable =>
      cases hs : dynamoDbTableActions [] g.Actions with
      | error e =>
        refine ⟨e, fun statements rest => ?_⟩
        rw [policyLoop]
        simp only [hr, hty, hs]
      | ok l =>
        exfalso
        apply hg
        refine ⟨r, hr, Or.inr hty, ?_⟩
        rw [hty]
        exact (dynamoDbTableActions_ok_iff [] g.Actions).1 ⟨l, hs⟩

/-- A grant list with a grant that is not valid ends the loop with an error
that depends neither on the statements built so far nor on what is appended to
the list. -/
theorem policyLoop_invalid_uniform (res : Resources) (permissions : List LambdaPermission)
    (h : ¬ ∀ g ∈ permissions, ValidGrant res g) :
    ∃ e, ∀ (statements : List PolicyStatement) (rest : List LambdaPermission),
      policyLoop res statements (permissions ++ rest) = ([], some e) := by
  rcases all_or_first_failure (ValidGrant res) permissions with hv | ⟨pre, g, post, e, hpre, hg⟩
  · exact absurd hv h
  · obtain ⟨msg, hmsg⟩ := policyLoop_cons_invalid_uniform res g hg
    refine ⟨msg, fun statements rest => ?_⟩
    rw [e, List.append_assoc, List.cons_append,
      policyLoop_first_invalid res statements pre g (post ++ rest) hpre]
    exact hmsg _ _

/-- Two registries that give the same answer for every identifier named in the
list run the loop to the same result. -/
theorem policyLoop_congr (res1 res2 : Resources) (permissions : List LambdaPermission) :
    (∀ g ∈ permissions, res1.findresourceByID g.ResourceID = res2.findresourceByID g.ResourceID) →
    ∀ statements : List PolicyStatement,
      policyLoop res1 statements permissions = policyLoop res2 statements permissions := by
  induction permissions with
  | nil => intro _ statements; rw [policyLoop, policyLoop]
  | cons g rest ih =>
    intro h statements
    have hg := h g (List.mem_cons_self _ _)
    have ih1 := ih (fun x hx => h x (List.mem_cons_of_mem _ hx))
    rw [policyLoop, policyLoop, hg]
    cases res2.findresourceByID g.ResourceID with
    | none => rfl
    | some r =>
      obtain ⟨ty, aws⟩ := r
      cases ty with
      | other tag => rfl
      | s3Bucket =>
        simp only
        cases s3BucketActions [] g.Actions with
        | error e => rfl
        | ok l => exact ih1 _
      | dynamoDbTable =>
        simp only
        cases dynamoDbTableActions [] g.Actions with
        | error e => rfl
        | ok l => exact ih1 _

/-- Every error the function returns carries one of the four messages. -/
theorem error_message_forms (res : Resources) (permissions : List LambdaPermission) (e : String)
    (he : (GetPolicyStatementsForLambda res permissions).2 = some e) :
    (∃ id, e = unknownResourceMessage id) ∨ (∃ op, e = invalidBucketOperationMessage op) ∨
      (∃ op, e = invalidTableOperationMessage op) ∨ (∃ id, e = noPolicyMessage id) := by
  rcases all_or_first_failure (ValidGrant res) permissions with hv | ⟨pre, g, post, hsplit, hpre, hg⟩
  · rw [GetPolicyStatementsForLambda_valid res permissions hv] at he
    cases he
  · rw [GetPolicyStatementsForLambda, hsplit, policyLoop_first_invalid res [] pre g post hpre,
      policyLoop] at he
    cases hr : res.findresourceByID g.ResourceID with
    | none =>
      simp only [hr, Option.some.injEq] at he
      exact Or.inl ⟨g.ResourceID, he.symm⟩
    | some r =>
      cases hty : r.resourceType with
      | other tag =>
        simp only [hr, hty, Option.some.injEq] at he
        exact Or.inr (Or.inr (Or.inr ⟨g.ResourceID, he.symm⟩))
      | s3Bucket =>
        rcases all_or_first_failure
            (fun a : LambdaPermissionAction => a.Operation ∈ tableKeys ResourceType.s3Bucket)
            g.Actions with hall | ⟨opre, a, opost, hops, hopre, ha⟩
        · exact absurd ⟨r, hr, Or.inl hty, by rw [hty]; exact hall⟩ hg
        · simp only [hr, hty, hops, s3BucketActions_error opre [] a opost hopre ha,
            Option.some.injEq] at he
          exact Or.inr (Or.inl ⟨a.Operation, he.symm⟩)
      | dynamoDbTable =>
        rcases all_or_first_failure
            (fun a : LambdaPermissionAction =>
              a.Operation ∈ tableKeys ResourceType.dynamoDbTable)
            g.Actions with hall | ⟨opre, a, opost, hops, hopre, ha⟩
        · exact absurd ⟨r, hr, Or.inr hty, by rw [hty]; exact hall⟩ hg
        · simp only [hr, hty, hops, dynamoDbTableActions_error opre [] a opost hopre ha,
            Option.some.injEq] at he
          exact Or.inr (Or.inr (Or.inl ⟨a.Operation, he.symm⟩))

/-! ## The claims, continued -/

/-- C11: for every registry and every grant list, every statement the call
returns has `Effect` equal to `Allow` and has as `Resource` the provider
identifier of a resource the registry holds (one that some identifier resolves
to). -/
theorem C11_effect_allow_resource_held (res : Resources) (permissions : List LambdaPermission)
    (s : PolicyStatement) (hs : s ∈ (GetPolicyStatementsForLambda res permissions).1) :
    s.Effect = "Allow" ∧
      ∃ id r, res.findresourceByID id = some r ∧ s.Resource = r.awsID := by
  rcases GetPolicyStatementsForLambda_cases res permissions with ⟨hv, e⟩ | ⟨_, msg, e⟩
  · rw [e] at hs
    obtain ⟨g, hg, rfl⟩ := List.mem_map.1 hs
    obtain ⟨r, hr, _, _⟩ := hv g hg
    rw [specStatement_of_find res g r hr]
    exact ⟨rfl, g.ResourceID, r, hr, rfl⟩
  · rw [e] at hs
    exact absurd hs (List.not_mem_nil s)

/-- C11 witness: the statement returned for a table grant. -/
theorem C11_effect_allow_resource_held_witness :
    ({ Effect := "Allow", Action := ["dynamodb:PutItem", "dynamodb:UpdateItem"],
        Resource := "arn:aws:dynamodb:::users" } : PolicyStatement).Effect = "Allow" ∧
      ∃ id r, sampleRegistry.findresourceByID id = some r ∧
        ({ Effect := "Allow", Action := ["dynamodb:PutItem", "dynamodb:UpdateItem"],
            Resource := "arn:aws:dynamodb:::users" } : PolicyStatement).Resource = r.awsID :=
  C11_effect_allow_resource_held sampleRegistry
    [uploadsGrant ["read", "write"], usersGrant ["write"]]
    { Effect := "Allow", Action := ["dynamodb:PutItem", "dynamodb:UpdateItem"],
      Resource := "arn:aws:dynamodb:::users" }
    (by decide)

/-- A lookup is stable when serving one lookup does not change the answer to
any later one (it may still change the registry state, as a cache would). -/
theorem registryAt_after_lookup {σ : Type} (lookup : σ → String → Option Resource × σ)
    (hstable : ∀ (s : σ) (id id' : String), (lookup (lookup s id).2 id').1 = (lookup s id').1)
    (s : σ) (id : String) :
    registryAt lookup (lookup s id).2 = registryAt lookup s := by
  unfold registryAt
  congr 1
  funext id'
  exact hstable s id id'

/-- Over a stable lookup the loop with state returns what the loop over the
registry read in the starting state returns, and ends in a state that answers
every lookup as the starting state does. -/
theorem policyLoopState_spec {σ : Type} (lookup : σ → String → Option Resource × σ)
    (hstable : ∀ (s : σ) (id id' : String), (lookup (lookup s id).2 id').1 = (lookup s id').1)
    (permissions : List LambdaPermission) :
    ∀ (s : σ) (statements : List PolicyStatement),
      (policyLoopState lookup s statements permissions).1 =
          policyLoop (registryAt lookup s) statements permissions ∧
        registryAt lookup (policyLoopState lookup s statements permissions).2 =
          registryAt lookup s := by
  induction permissions with
  | nil =>
    intro s statements
    rw [policyLoopState, policyLoop]
    exact ⟨rfl, rfl⟩
  | cons g rest ih =>
    intro s statements
    have hreg := registryAt_after_lookup lookup hstable s g.ResourceID
    have hfind : (registryAt lookup s).findresourceByID g.ResourceID =
        (lookup s g.ResourceID).1 := rfl
    rw [policyLoopState, policyLoop, hfind]
    rcases hl : lookup s g.ResourceID with ⟨r, s1⟩
    rw [hl] at hreg
    cases r with
    | none => exact ⟨rfl, hreg⟩
    | some r =>
      obtain ⟨ty, aws⟩ := r
      cases ty with
      | other tag => exact ⟨rfl, hreg⟩
      | s3Bucket =>
        simp only
        cases s3BucketActions [] g.Actions with
        | error e => exact ⟨rfl, hreg⟩
        | ok l =>
          simp only
          have h := ih s1 (statements ++ [{ Effect := "Allow", Resource := aws, Action := l }])
          rw [hreg] at h
          exact h
      | dynamoDbTable =>
        simp only
        cases dynamoDbTableActions [] g.Actions with
        | error e => exact ⟨rfl, hreg⟩
        | ok l =>
          simp only
          have h := ih s1 (statements ++ [{ Effect := "Allow", Resource := aws, Action := l }])
          rw [hreg] at h
          exact h

/-- C12: determinism across calls.  The registry is a state that every lookup
may change, and the call hands it on from lookup to lookup.  Whenever serving
a lookup does not change the answer to a later one (the same registry state,
as far as lookups show it), a second call with the same grants, made in the
state the first call left behind, returns the same statements and the same
error as the first; both are what the function returns over the registry read
in the starting state. -/
theorem C12_second_call_same_result {σ : Type} (lookup : σ → String → Option Resource × σ)
    (hstable : ∀ (s : σ) (id id' : String), (lookup (lookup s id).2 id').1 = (lookup s id').1)
    (s : σ) (permissions : List LambdaPermission) :
    (GetPolicyStatementsForLambdaState lookup
        (GetPolicyStatementsForLambdaState lookup s permissions).2 permissions).1 =
        (GetPolicyStatementsForLambdaState lookup s permissions).1 ∧
      (GetPolicyStatementsForLambdaState lookup s permissions).1 =
        GetPolicyStatementsForLambda (registryAt lookup s) permissions := by
  have h1 := policyLoopState_spec lookup hstable permissions s []
  have h2 := policyLoopState_spec lookup hstable permissions
    (policyLoopState lookup s [] permissions).2 []
  unfold GetPolicyStatementsForLambdaState GetPolicyStatementsForLambda
  refine ⟨?_, h1.1⟩
  rw [h2.1, h1.2, h1.1]

/-- C12 witness: a registry that counts the lookups it serves.  The first call
on two grants starts in state `0` and leaves state `2`; the second call starts
there and returns the same result. -/
theorem C12_second_call_same_result_witness :
    (GetPolicyStatementsForLambdaState countingLookup 0
        [uploadsGrant ["read", "write"], usersGrant ["write"]]).2 = 2 ∧
      (GetPolicyStatementsForLambdaState countingLookup 2
        [uploadsGrant ["read", "write"], usersGrant ["write"]]).1 =
        (GetPolicyStatementsForLambdaState countingLookup 0
          [uploadsGrant ["read", "write"], usersGrant ["write"]]).1 :=
  ⟨by decide,
    (C12_second_call_same_result countingLookup (fun _ _ _ => rfl) 0
      [uploadsGrant ["read", "write"], usersGrant ["write"]]).1⟩

/-- C13: the operation vocabulary is per resource type: a single grant that
resolves to a bucket and whose operations hold `query` after bucket operations
only gives no statements and the error `Invalid operation on bucket:query`,
although `query` is a key of the table of the other type. -/
theorem C13_query_on_bucket (res : Resources) (g : LambdaPermission) (r : Resource)
    (opre opost : List LambdaPermissionAction)
    (hr : res.findresourceByID g.ResourceID = some r)
    (hty : r.resourceType = ResourceType.s3Bucket)
    (hops : g.Actions = opre ++ [{ Operation := "query" }] ++ opost)
    (hopre : ∀ b ∈ opre, b.Operation ∈ tableKeys ResourceType.s3Bucket) :
    GetPolicyStatementsForLambda res [g] = ([], some "Invalid operation on bucket:query") ∧
      "query" ∈ tableKeys ResourceType.dynamoDbTable := by
  refine ⟨?_, by decide⟩
  rw [List.append_assoc, List.singleton_append] at hops
  have hq : (LambdaPermissionAction.mk "query").Operation ∉ tableKeys ResourceType.s3Bucket := by
    decide
  rw [GetPolicyStatementsForLambda, policyLoop]
  simp only [hr, hty, hops, s3BucketActions_error opre [] _ opost hopre hq]
  decide

/-- C13 witness: `[read, query, write]` on the bucket of the sample registry. -/
theorem C13_query_on_bucket_witness :
    GetPolicyStatementsForLambda sampleRegistry [uploadsGrant ["read", "query", "write"]] =
        ([], some "Invalid operation on bucket:query") ∧
      "query" ∈ tableKeys ResourceType.dynamoDbTable :=
  C13_query_on_bucket sampleRegistry (uploadsGrant ["read", "query", "write"])
    { resourceType := ResourceType.s3Bucket, awsID := "arn:aws:s3:::uploads" }
    [{ Operation := "read" }] [{ Operation := "write" }]
    (by decide) rfl (by decide) (by decide)

/-- C14: the four error messages are pairwise different strings, whatever the
identifiers and operation names they name: unknown resource, invalid operation
on a bucket, invalid operation on a table, no policy for the resource type. -/
theorem C14_messages_pairwise_different (id1 id2 op1 op2 : String) :
    unknownResourceMessage id1 ≠ invalidBucketOperationMessage op1 ∧
      unknownResourceMessage id1 ≠ invalidTableOperationMessage op2 ∧
      unknownResourceMessage id1 ≠ noPolicyMessage id2 ∧
      invalidBucketOperationMessage op1 ≠ invalidTableOperationMessage op2 ∧
      invalidBucketOperationMessage op1 ≠ noPolicyMessage id2 ∧
      invalidTableOperationMessage op2 ≠ noPolicyMessage id2 := by
  refine ⟨?_, ?_, ?_, ?_, ?_, ?_⟩ <;>
  · intro h
    have h2 := congrArg String.data h
    simp [unknownResourceMessage, invalidBucketOperationMessage, invalidTableOperationMessage,
      noPolicyMessage] at h2

/-- The addition of a 64-bit `int` is the mathematical one when the result is
in range. -/
theorem wrapInt_of_inRange (x : Int) (hlo : minInt ≤ x) (hhi : x ≤ maxInt) : wrapInt x = x := by
  unfold minInt at hlo
  unfold maxInt at hhi
  unfold wrapInt
  omega

/-- The indentation loop completes when what it builds fits. -/
theorem indentLoop_some (limit : Nat) (remaining : Nat) :
    ∀ tab : String, tab.length + 2 * remaining ≤ limit →
      ∃ t, indentLoop limit remaining tab = some t := by
  induction remaining with
  | zero => intro tab _; exact ⟨tab, rfl⟩
  | succ n ih =>
    intro tab h
    have h2 : tab.length + 2 ≤ limit := by omega
    rw [indentLoop, if_pos h2]
    apply ih
    rw [String.length_append]
    have : "  ".length = 2 := by decide
    omega

/-- The indentation loop does not complete when what it builds does not
fit. -/
theorem indentLoop_none (limit : Nat) (remaining : Nat) :
    ∀ tab : String, tab.length ≤ limit → limit < tab.length + 2 * remaining →
      indentLoop limit remaining tab = none := by
  induction remaining with
  | zero => intro tab h1 h2; omega
  | succ n ih =>
    intro tab h1 h2
    rw [indentLoop]
    split
    · rename_i hfit
      have e : "  ".length = 2 := by decide
      apply ih
      · rw [String.length_append]; omega
      · rw [String.length_append]; omega
    · rfl

/-- The function `printMessageAndArgs` returns when twice the indent is within
the limit. -/
theorem printMessageAndArgs_some (limit : Nat) (indent : Int) (title : String)
    (args : Option (List (String × String))) (out : List PrintCall)
    (h : 2 * indent ≤ limit) :
    ∃ out1, printMessageAndArgs limit indent title args out = some out1 := by
  have e : "".length = 0 := by decide
  obtain ⟨t, ht⟩ := indentLoop_some limit indent.toNat "" (by rw [e]; omega)
  exact ⟨_, by rw [printMessageAndArgs, ht]⟩

/-- The function `printMessageAndArgs` does not return when twice the indent
is beyond the limit. -/
theorem printMessageAndArgs_none (limit : Nat) (indent : Int) (title : String)
    (args : Option (List (String × String))) (out : List PrintCall)
    (h : (limit : Int) < 2 * indent) :
    printMessageAndArgs limit indent title args out = none := by
  have e : "".length = 0 := by decide
  rw [printMessageAndArgs, indentLoop_none limit indent.toNat "" (by rw [e]; omega)
    (by rw [e]; omega)]

/-- The method `Start` returns the task one level further in when the message
is there and the indentation fits. -/
theorem Start_returns (limit : Nat) (hlimit : (limit : Int) ≤ maxInt) (r : Reporter)
    (out : List PrintCall) (hmsg : r.message ≠ none) (hlo : minInt ≤ r.level)
    (hfit : 2 * r.level ≤ limit) :
    ∃ out1, Reporter.Start limit r out =
      some ({ reporter := some r, level := r.level + 1 }, out1) := by
  have e1 : wrapInt (1 + r.level) = r.level + 1 := by
    unfold maxInt at hlimit
    unfold minInt at hlo
    rw [wrapInt_of_inRange _ (by unfold minInt; omega) (by unfold maxInt; omega)]
    omega
  cases hm : r.message with
  | none => exact absurd hm hmsg
  | some m =>
    obtain ⟨out1, h1⟩ := printMessageAndArgs_some limit r.level (m.title ++ "") m.args out hfit
    refine ⟨out1, ?_⟩
    simp only [Reporter.Start, Message.print, hm, if_true, h1, e1]

/-- The method `Start` does not return when the indentation does not fit. -/
theorem Start_none_of_too_deep (limit : Nat) (r : Reporter) (out : List PrintCall)
    (h : (limit : Int) < 2 * r.level) : Reporter.Start limit r out = none := by
  cases hm : r.message with
  | none => simp only [Reporter.Start, Message.print, hm]
  | some m =>
    simp only [Reporter.Start, Message.print, hm, if_true,
      printMessageAndArgs_none limit r.level (m.title ++ "") m.args out h]

/-- C15, as the code has it.  In a run that builds strings of at most `limit`
bytes (`limit` at most the greatest `int`), with levels that are 64-bit `int`
values: a reporter whose message is not nil and whose indentation fits (twice
its level is within `limit`) is started into a task whose level is the
reporter's plus one; a task whose sub-task indentation fits (twice its level
plus one is within `limit`) gets from `Sub`, and from `SubM` with a message
that is not nil, a task whose level is its own plus two, strictly greater than
its own; and a task whose own indentation fits gets itself back from `Log`. -/
theorem C15_levels_increase_when_printed (limit : Nat) (r : Reporter) (t : Task)
    (title : String) (m : Message) (out : List PrintCall) :
    ((limit : Int) ≤ maxInt → minInt ≤ r.level → r.message ≠ none → 2 * r.level ≤ limit →
        ∃ out1, Reporter.Start limit r out =
          some ({ reporter := some r, level := r.level + 1 }, out1)) ∧
      ((limit : Int) ≤ maxInt → minInt ≤ t.level → 2 * (t.level + 1) ≤ limit →
        ∃ t1 out1, Task.Sub limit t title out = some (t1, out1) ∧
          t1.level = t.level + 2 ∧ t.level < t1.level) ∧
      ((limit : Int) ≤ maxInt → minInt ≤ t.level → 2 * (t.level + 1) ≤ limit →
        ∃ t1 out1, Task.SubM limit t (some m) out = some (t1, out1) ∧
          t1.level = t.level + 2 ∧ t.level < t1.level) ∧
      (2 * t.level ≤ limit → ∃ out1, Task.Log limit t title out = some (t, out1)) := by
  have hsub : ∀ msg : Message, (limit : Int) ≤ maxInt → minInt ≤ t.level →
      2 * (t.level + 1) ≤ limit →
      ∃ t1 out1, Task.SubM limit t (some msg) out = some (t1, out1) ∧
        t1.level = t.level + 2 ∧ t.level < t1.level := by
    intro msg hlimit ht hfit
    have e2 : wrapInt (t.level + 1) = t.level + 1 := by
      unfold maxInt at hlimit
      unfold minInt at ht
      exact wrapInt_of_inRange _ (by unfold minInt; omega) (by unfold maxInt; omega)
    obtain ⟨out1, h1⟩ := Start_returns limit hlimit
      { message := some msg, level := wrapInt (t.level + 1) } out
      (by simp)
      (by
        show minInt ≤ wrapInt (t.level + 1)
        rw [e2]
        unfold minInt at ht ⊢
        omega)
      (by
        show 2 * wrapInt (t.level + 1) ≤ limit
        rw [e2]
        exact hfit)
    refine ⟨_, out1, h1, ?_, ?_⟩
    · show wrapInt (t.level + 1) + 1 = t.level + 2
      rw [e2]; omega
    · show t.level < wrapInt (t.level + 1) + 1
      rw [e2]; omega
  refine ⟨fun hlimit hr hmsg hfit => Start_returns limit hlimit r out hmsg hr hfit,
    hsub (NewMessage title), hsub m, ?_⟩
  intro hfit
  obtain ⟨out1, h1⟩ := printMessageAndArgs_some limit t.level ((NewMessage title).title ++ "")
    (NewMessage title).args out hfit
  refine ⟨out1, ?_⟩
  simp only [Task.Log, Task.LogM, Message.print, if_true, h1]

/-- C15 witness: in a run whose strings hold a thousand bytes, a new reporter
is started into a task at level one, that task gets a sub-task at level three,
and it gets itself back from `Log`. -/
theorem C15_levels_increase_when_printed_witness :
    (∃ out1, Reporter.Start 1000 (NewReporter "deploy") [] =
        some ({ reporter := some (NewReporter "deploy"), level := 0 + 1 }, out1)) ∧
      (∃ t1 out1,
        Task.Sub 1000 { reporter := some (NewReporter "deploy"), level := 1 } "step" [] =
          some (t1, out1) ∧
        t1.level = 1 + 2 ∧ (1 : Int) < t1.level) ∧
      (∃ out1,
        Task.Log 1000 { reporter := some (NewReporter "deploy"), level := 1 } "step" [] =
          some ({ reporter := some (NewReporter "deploy"), level := 1 }, out1)) :=
  have h := C15_levels_increase_when_printed 1000 (NewReporter "deploy")
    { reporter := some (NewReporter "deploy"), level := 1 } "step" (NewMessage "step") []
  ⟨h.1 (by decide) (by decide) (by decide) (by decide),
    h.2.1 (by decide) (by decide) (by decide), h.2.2.2 (by decide)⟩

/-- C15 counterexample, in a run whose strings may be as long as an `int` can
count.  A task at the greatest `int` gets from `Sub` a task at the least `int`
plus one, which is not above its own level; a reporter whose message is nil is
not started into any task; and a task at the greatest `int` minus one gets no
task from `Sub`, the indentation of the sub-task fitting no string. -/
theorem C15_levels_counterexample :
    ((Task.Sub 9223372036854775807 { reporter := none, level := 9223372036854775807 }
          "step" []).map (fun p => p.1.level) = some (-9223372036854775807)) ∧
      ((Task.Sub 9223372036854775807 { reporter := none, level := 9223372036854775807 }
          "step" []).map (fun p => decide (9223372036854775807 < p.1.level)) = some false) ∧
      Reporter.Start 9223372036854775807 (NewReporterM none) [] = none ∧
      Task.Sub 9223372036854775807 { reporter := none, level := 9223372036854775806 }
        "step" [] = none := by
  refine ⟨by decide, by decide, by decide, ?_⟩
  exact Start_none_of_too_deep 9223372036854775807
    { message := some (NewMessage "step"), level := wrapInt (9223372036854775806 + 1) } []
    (by decide)

/-- C16: synthesis distributes over concatenation, errors taking precedence
from left to right: the call on `a ++ b` returns the error of the call on `a`
if that call fails, otherwise the error of the call on `b` if that call fails
(with no statements in both cases), otherwise no error and the statements of
`a` followed by the statements of `b`. -/
theorem C16_append (res : Resources) (a b : List LambdaPermission) :
    GetPolicyStatementsForLambda res (a ++ b) =
      match (GetPolicyStatementsForLambda res a).2 with
      | some e => ([], some e)
      | none =>
        match (GetPolicyStatementsForLambda res b).2 with
        | some e => ([], some e)
        | none =>
          ((GetPolicyStatementsForLambda res a).1 ++ (GetPolicyStatementsForLambda res b).1,
            none) := by
  by_cases ha : ∀ g ∈ a, ValidGrant res g
  · have ea := GetPolicyStatementsForLambda_valid res a ha
    have eab : GetPolicyStatementsForLambda res (a ++ b) =
        policyLoop res (a.map (specStatement res)) b := by
      rw [GetPolicyStatementsForLambda, policyLoop_append_valid res a [] b ha, List.nil_append]
    rw [eab, ea]
    by_cases hb : ∀ g ∈ b, ValidGrant res g
    · rw [GetPolicyStatementsForLambda_valid res b hb, policyLoop_valid res _ b hb]
    · obtain ⟨msg, hmsg⟩ := policyLoop_invalid_uniform res b hb
      have e1 := hmsg (a.map (specStatement res)) []
      have e2 := hmsg [] []
      rw [List.append_nil] at e1 e2
      rw [GetPolicyStatementsForLambda, e1, e2]
  · obtain ⟨msg, hmsg⟩ := policyLoop_invalid_uniform res a ha
    have e1 := hmsg [] b
    have e2 := hmsg [] []
    rw [List.append_nil] at e2
    rw [GetPolicyStatementsForLambda, GetPolicyStatementsForLambda, e1, e2]

/-- C17: the result depends on the registry only through the lookups of the
identifiers the grants name: two registries whose lookups agree on every such
identifier (both absent, or both present with the same type and the same
provider identifier) return the same statements and the same error. -/
theorem C17_depends_on_named_lookups (res1 res2 : Resources)
    (permissions : List LambdaPermission)
    (hagree : ∀ g ∈ permissions,
      (res1.findresourceByID g.ResourceID).map (fun r => (r.resourceType, r.awsID)) =
        (res2.findresourceByID g.ResourceID).map (fun r => (r.resourceType, r.awsID))) :
    GetPolicyStatementsForLambda res1 permissions =
      GetPolicyStatementsForLambda res2 permissions := by
  apply policyLoop_congr res1 res2 permissions
  intro g hg
  have h := hagree g hg
  cases h1 : res1.findresourceByID g.ResourceID with
  | none =>
    cases h2 : res2.findresourceByID g.ResourceID with
    | none => rfl
    | some r2 => rw [h1, h2] at h; cases h
  | some r1 =>
    cases h2 : res2.findresourceByID g.ResourceID with
    | none => rw [h1, h2] at h; cases h
    | some r2 =>
      rw [h1, h2] at h
      obtain ⟨t1, a1⟩ := r1
      obtain ⟨t2, a2⟩ := r2
      simp only [Option.map_some', Option.some.injEq, Prod.mk.injEq] at h
      rw [h.1, h.2]

/-- A registry that knows the table of `sampleRegistry` and nothing else. -/
theorem usersOnly_agrees :
    ∀ g ∈ [usersGrant ["write"]],
      (sampleRegistry.findresourceByID g.ResourceID).map (fun r => (r.resourceType, r.awsID)) =
        ((Resources.mk (fun id =>
            if id = "users" then
              some { resourceType := ResourceType.dynamoDbTable,
                     awsID := "arn:aws:dynamodb:::users" }
            else none)).findresourceByID g.ResourceID).map
          (fun r => (r.resourceType, r.awsID)) := by
  decide

/-- C17 witness: the sample registry and a registry that holds only the table
agree on a grant list that names only the table. -/
theorem C17_depends_on_named_lookups_witness :
    GetPolicyStatementsForLambda sampleRegistry [usersGrant ["write"]] =
      GetPolicyStatementsForLambda
        (Resources.mk (fun id =>
          if id = "users" then
            some { resourceType := ResourceType.dynamoDbTable,
                   awsID := "arn:aws:dynamodb:::users" }
          else none))
        [usersGrant ["write"]] :=
  C17_depends_on_named_lookups sampleRegistry _ [usersGrant ["write"]] usersOnly_agrees

/-- C18: a grant with no operations is accepted: a single grant that resolves
to a bucket or a table and has an empty operation list gives no error and
exactly one statement, with effect `Allow`, the provider identifier of the
resource and no action; and the empty grant list gives no error and no
statement. -/
theorem C18_empty_operations (res : Resources) (g : LambdaPermission) (r : Resource)
    (hr : res.findresourceByID g.ResourceID = some r)
    (hty : r.resourceType = ResourceType.s3Bucket ∨ r.resourceType = ResourceType.dynamoDbTable)
    (hops : g.Actions = []) :
    GetPolicyStatementsForLambda res [g] =
        ([{ Effect := "Allow", Action := [], Resource := r.awsID }], none) ∧
      GetPolicyStatementsForLambda res [] = ([], none) := by
  refine ⟨?_, rfl⟩
  rw [GetPolicyStatementsForLambda, policyLoop]
  rcases hty with hty | hty
  · simp only [hr, hty, hops, s3BucketActions, policyLoop, List.nil_append]
  · simp only [hr, hty, hops, dynamoDbTableActions, policyLoop, List.nil_append]

/-- C18 witness: a bucket grant with no operations. -/
theorem C18_empty_operations_witness :
    GetPolicyStatementsForLambda sampleRegistry [uploadsGrant []] =
        ([{ Effect := "Allow", Action := [], Resource := "arn:aws:s3:::uploads" }], none) ∧
      GetPolicyStatementsForLambda sampleRegistry [] = ([], none) :=
  C18_empty_operations sampleRegistry (uploadsGrant [])
    { resourceType := ResourceType.s3Bucket, awsID := "arn:aws:s3:::uploads" }
    (by decide) (Or.inl rfl) rfl

/-- On a bucket every operation that is a key stands for one action. -/
theorem length_expandOperations_s3Bucket (ops : List LambdaPermissionAction)
    (h : ∀ a ∈ ops, a.Operation ∈ tableKeys ResourceType.s3Bucket) :
    (expandOperations ResourceType.s3Bucket ops).length = ops.length := by
  induction ops with
  | nil => rfl
  | cons a rest ih =>
    have ha := (mem_tableKeys_s3Bucket a.Operation).1 (h a (List.mem_cons_self _ _))
    have hrest := ih (fun b hb => h b (List.mem_cons_of_mem _ hb))
    have e : (tableExpansion ResourceType.s3Bucket a.Operation).length = 1 := by
      rcases ha with ha | ha | ha <;> (rw [ha]; decide)
    rw [expandOperations_cons, List.length_append, e, hrest, List.length_cons]
    omega

/-- On a table every operation that is a key stands for one action, except
`write`, which stands for two. -/
theorem length_expandOperations_dynamoDbTable (ops : List LambdaPermissionAction)
    (h : ∀ a ∈ ops, a.Operation ∈ tableKeys ResourceType.dynamoDbTable) :
    (expandOperations ResourceType.dynamoDbTable ops).length = ops.length + writeCount ops := by
  induction ops with
  | nil => rfl
  | cons a rest ih =>
    have ha := (mem_tableKeys_dynamoDbTable a.Operation).1 (h a (List.mem_cons_self _ _))
    have hrest := ih (fun b hb => h b (List.mem_cons_of_mem _ hb))
    have e : (tableExpansion ResourceType.dynamoDbTable a.Operation).length =
        1 + (if a.Operation = "write" then 1 else 0) := by
      rcases ha with ha | ha | ha | ha <;> (rw [ha]; decide)
    have c : writeCount (a :: rest) =
        writeCount rest + (if a.Operation = "write" then 1 else 0) := by
      simp [writeCount, List.countP_cons]
    rw [expandOperations_cons, List.length_append, e, hrest, List.length_cons, c]
    omega

/-- C19: the exact size of the privilege set: for every call that returns no
error and every index `i`, the statement at `i` has as many actions as the
grant at `i` has operations when the grant resolves to a bucket, and as many as
the grant has operations plus the number of occurrences of `write` among them
when it resolves to a table. -/
theorem C19_action_count (res : Resources) (permissions : List LambdaPermission)
    (hok : (GetPolicyStatementsForLambda res permissions).2 = none) :
    ∀ (i : Nat) (hi : i < permissions.length),
      ∃ r s, res.findresourceByID (permissions[i]).ResourceID = some r ∧
        (GetPolicyStatementsForLambda res permissions).1[i]? = some s ∧
        (r.resourceType = ResourceType.s3Bucket →
          s.Action.length = (permissions[i]).Actions.length) ∧
        (r.resourceType = ResourceType.dynamoDbTable →
          s.Action.length =
            (permissions[i]).Actions.length +
              (permissions[i]).Actions.countP (fun a => a.Operation = "write")) := by
  have h : ∀ g ∈ permissions, ValidGrant res g := by
    rcases GetPolicyStatementsForLambda_cases res permissions with ⟨hv, _⟩ | ⟨_, e, he⟩
    · exact hv
    · rw [he] at hok
      cases hok
  rw [GetPolicyStatementsForLambda_valid res permissions h]
  intro i hi
  obtain ⟨r, hr, _, hkeys⟩ := h permissions[i] (List.getElem_mem _)
  refine ⟨r, specStatement res permissions[i], hr, ?_, ?_, ?_⟩
  · simp [List.getElem?_map, List.getElem?_eq_getElem hi]
  · intro hty
    rw [hty] at hkeys
    rw [specStatement_of_find res _ r hr, hty]
    exact length_expandOperations_s3Bucket _ hkeys
  · intro hty
    rw [hty] at hkeys
    rw [specStatement_of_find res _ r hr, hty]
    exact length_expandOperations_dynamoDbTable _ hkeys

/-- C19 witness: the table grant `[write, read, write]` has three operations,
two of them `write`, and its statement has five actions. -/
theorem C19_action_count_witness :
    ∃ r s, sampleRegistry.findresourceByID "users" = some r ∧
      (GetPolicyStatementsForLambda sampleRegistry
        [usersGrant ["write", "read", "write"]]).1[0]? = some s ∧
      (r.resourceType = ResourceType.s3Bucket → s.Action.length = 3) ∧
      (r.resourceType = ResourceType.dynamoDbTable → s.Action.length = 3 + 2) :=
  C19_action_count sampleRegistry [usersGrant ["write", "read", "write"]] (by decide) 0
    (by decide)

end Nestor
